import Mathlib

/-!
Verification of the fates core (Result / Option / Validation ADTs and the
combinator layer) against its TypeScript source. Every definition below is a
direct translation of the corresponding class method or function in src/;
asynchronous values (AsyncResult) are modelled by the Result they settle to,
and an impure thunk is modelled by the sequence of results of its calls.
-/

namespace Fates

/-- Result<T, E> (src/result): tagged union with variants Ok(T) and Err(E). -/
inductive Result (T : Type) (E : Type) where
  | ok (value : T)
  | err (error : E)
deriving DecidableEq, Repr

/-- Option<T> (src/option): tagged union with variants Some(T) and None. -/
inductive Option (T : Type) where
  | some (value : T)
  | none
deriving DecidableEq, Repr

namespace Option

/-- Some.map / None.map (src/option/some.ts, src/option/none.ts). -/
def map {T U : Type} (o : Option T) (fn : T → U) : Option U :=
  match o with
  | some v => some (fn v)
  | none => none

end Option

namespace Result

/-- Ok.isOk / Err.isOk. -/
def isOk {T E : Type} : Result T E → Bool
  | ok _ => true
  | err _ => false

/-- Ok.isErr / Err.isErr. -/
def isErr {T E : Type} : Result T E → Bool
  | ok _ => false
  | err _ => true

/-- Ok.map applies fn to the value; Err.map returns this unchanged. -/
def map {T U E : Type} (r : Result T E) (fn : T → U) : Result U E :=
  match r with
  | ok v => ok (fn v)
  | err e => err e

/-- Ok.mapErr returns this unchanged; Err.mapErr applies fn to the error. -/
def mapErr {T E F : Type} (r : Result T E) (fn : E → F) : Result T F :=
  match r with
  | ok v => ok v
  | err e => err (fn e)

/-- Ok.unwrapOr returns the value; Err.unwrapOr returns the default. -/
def unwrapOr {T E : Type} (r : Result T E) (defaultValue : T) : T :=
  match r with
  | ok v => v
  | err _ => defaultValue

/-- Ok.unwrap returns the value; Err.unwrap throws
`Called unwrap on an Err value: ${value}` (src/result/err.ts line 135).
The possible exception is made explicit with `Except String`. -/
def unwrap {T E : Type} [ToString E] (r : Result T E) : Except String T :=
  match r with
  | ok v => Except.ok v
  | err e => Except.error ("Called unwrap on an Err value: " ++ toString e)

/-- safeUnwrap returns the value of an Ok or the raw error of an Err
(the T | E union is modelled as a sum). -/
def safeUnwrap {T E : Type} (r : Result T E) : T ⊕ E :=
  match r with
  | ok v => Sum.inl v
  | err e => Sum.inr e

/-- `match` in the source (a keyword in Lean): runs exactly one handler. -/
def matchWith {T E U : Type} (r : Result T E) (okFn : T → U) (errFn : E → U) : U :=
  match r with
  | ok v => okFn v
  | err e => errFn e

/-- Ok.and returns resb; Err.and returns this. -/
def and {T U E : Type} (r : Result T E) (resb : Result U E) : Result U E :=
  match r with
  | ok _ => resb
  | err e => err e

/-- Ok.or returns this; Err.or returns resb. -/
def or {T E : Type} (r : Result T E) (resb : Result T E) : Result T E :=
  match r with
  | ok v => ok v
  | err _ => resb

/-- Ok.andThen invokes fn on the value; Err.andThen returns this. -/
def andThen {T U E : Type} (r : Result T E) (fn : T → Result U E) : Result U E :=
  match r with
  | ok v => fn v
  | err e => err e

/-- Ok.orElse returns this; Err.orElse invokes fn on the error. -/
def orElse {T E F : Type} (r : Result T E) (fn : E → Result T F) : Result T F :=
  match r with
  | ok v => ok v
  | err e => fn e

/-- Ok.unwrapOrElse returns the value; Err.unwrapOrElse computes fn(error). -/
def unwrapOrElse {T E : Type} (r : Result T E) (fn : E → T) : T :=
  match r with
  | ok v => v
  | err e => fn e

/-- Ok.transpose is `this.value.map(v => ok(v))`; Err.transpose is
`some(this)` (src/result/ok.ts line 64, src/result/result.ts line 167). -/
def transpose {U E : Type} (r : Result (Option U) E) : Option (Result U E) :=
  match r with
  | ok o => o.map (fun v => ok v)
  | err e => Option.some (err e)

/-- Ok.zip is `other.map(o => [this.value, o])`; Err.zip returns this. -/
def zip {T U E : Type} (r : Result T E) (other : Result U E) : Result (T × U) E :=
  match r with
  | ok a => other.map (fun otherValue => (a, otherValue))
  | err e => err e

end Result

/-- Modelled from the spec: the spec (§8, transpose round-trip) states that
Option also exposes `transpose` with `some(ok(v)).transpose() == ok(some(v))`;
no Option.transpose exists under src/, so the operation is taken from the
spec's words as the inverse direction of Result.transpose. -/
def Option.transpose {U E : Type} : Option (Result U E) → Result (Option U) E
  | Option.some (Result.ok v) => Result.ok (Option.some v)
  | Option.some (Result.err e) => Result.err e
  | Option.none => Result.ok Option.none

/-- Validation<T, E> (src/validation/validation.ts): Valid(T) or
Invalid(errors: E[]). The representation allows an empty error list exactly
as the TypeScript class does (`new Invalid(errors)` takes any array). -/
inductive Validation (T : Type) (E : Type) where
  | valid (value : T)
  | invalid (errors : List E)
deriving DecidableEq, Repr

namespace Validation

/-- Valid.isValid / Invalid.isValid. -/
def isValid {T E : Type} : Validation T E → Bool
  | valid _ => true
  | invalid _ => false

/-- Valid.isInvalid / Invalid.isInvalid. -/
def isInvalid {T E : Type} : Validation T E → Bool
  | valid _ => false
  | invalid _ => true

/-- Statement-level accessor: the error list carried by a Validation
(the Invalid payload, [] for Valid). -/
def errorsOf {T E : Type} : Validation T E → List E
  | valid _ => []
  | invalid errors => errors

/-- Valid.map applies fn; Invalid.map keeps the errors. -/
def map {T U E : Type} (v : Validation T E) (fn : T → U) : Validation U E :=
  match v with
  | valid value => valid (fn value)
  | invalid errors => invalid errors

/-- Valid.mapError keeps the value; Invalid.mapError applies fn to the
whole error list. -/
def mapError {T E F : Type} (v : Validation T E) (fn : List E → List F) : Validation T F :=
  match v with
  | valid value => valid value
  | invalid errors => invalid (fn errors)

/-- Valid.and returns other; Invalid.and keeps this errors. -/
def and {T U E : Type} (v : Validation T E) (other : Validation U E) : Validation U E :=
  match v with
  | valid _ => other
  | invalid errors => invalid errors

/-- Valid.or returns this; Invalid.or returns other. -/
def or {T E : Type} (v : Validation T E) (other : Validation T E) : Validation T E :=
  match v with
  | valid value => valid value
  | invalid _ => other

/-- `match` in the source: runs exactly one handler. -/
def matchWith {T E U : Type} (v : Validation T E) (validFn : T → U) (invalidFn : List E → U) : U :=
  match v with
  | valid value => validFn value
  | invalid errors => invalidFn errors

/-- The for-loop of combineValidations: pushes the value of each Valid onto
`values` and appends the errors of each Invalid onto `errors`, in input
order (src/validation/validation.ts lines 123-129). -/
def combineGo {T E : Type} : List (Validation T E) → List T → List E → List T × List E
  | [], values, errors => (values, errors)
  | validation :: rest, values, errors =>
    match validation with
    | valid v => combineGo rest (values ++ [v]) errors
    | invalid es => combineGo rest values (errors ++ es)

/-- combineValidations: runs the loop, then
`errors.length > 0 ? invalid(...errors) : valid(values)` (line 131). -/
def combineValidations {T E : Type} (validations : List (Validation T E)) : Validation (List T) E :=
  match combineGo validations [] [] with
  | (values, errors) => if errors.length > 0 then invalid errors else valid values

/-- validateAll: `combineValidations(items.map(validator))`. -/
def validateAll {T E : Type} (items : List T) (validator : T → Validation T E) : Validation (List T) E :=
  combineValidations (items.map validator)

/-- fromResult: ok value becomes valid(value), err error becomes
invalid(error) (a one-error list, from the variadic call `invalid(error)`). -/
def fromResult {T E : Type} (result : Result T E) : Validation T E :=
  result.matchWith (fun value => valid value) (fun error => invalid [error])

/-- fromOption: some value becomes valid(value), none becomes invalid(error). -/
def fromOption {T E : Type} (option : Option T) (error : E) : Validation T E :=
  match option with
  | Option.some value => valid value
  | Option.none => invalid [error]

end Validation

namespace Validation

/-- Statement-level: the values of the Valid entries of a list, in input
order (what combineValidations pushes onto `values`). -/
def validValues {T E : Type} : List (Validation T E) → List T
  | [] => []
  | valid v :: rest => v :: validValues rest
  | invalid _ :: rest => validValues rest

/-- Statement-level: the concatenation of the error sequences of all the
Invalid entries of a list, in input order (what combineValidations pushes
onto `errors`). -/
def allErrors {T E : Type} : List (Validation T E) → List E
  | [] => []
  | valid _ :: rest => allErrors rest
  | invalid es :: rest => es ++ allErrors rest

end Validation

/-- The Invalid-is-non-empty invariant, stated of a single value: if the
value is Invalid then its error list is non-empty. -/
def holdsAnError {T E : Type} (x : Validation T E) : Prop :=
  x.isInvalid = true → x.errorsOf ≠ []

/-- Validation values reachable through the public Validation interface,
under the provisos that the variadic `invalid` constructor receives at least
one error and that the function given to `mapError` maps non-empty error
lists to non-empty error lists. -/
inductive ReachableV : (T : Type) → (E : Type) → Validation T E → Prop where
  | valid (T E : Type) (v : T) : ReachableV T E (Validation.valid v)
  | invalid (T E : Type) (es : List E) (h : es ≠ []) : ReachableV T E (Validation.invalid es)
  | map (T U E : Type) (x : Validation T E) (fn : T → U) :
      ReachableV T E x → ReachableV U E (x.map fn)
  | mapError (T E F : Type) (x : Validation T E) (fn : List E → List F)
      (hfn : ∀ es, es ≠ [] → fn es ≠ []) :
      ReachableV T E x → ReachableV T F (x.mapError fn)
  | and (T U E : Type) (x : Validation T E) (y : Validation U E) :
      ReachableV T E x → ReachableV U E y → ReachableV U E (x.and y)
  | or (T E : Type) (x y : Validation T E) :
      ReachableV T E x → ReachableV T E y → ReachableV T E (x.or y)
  | combine (T E : Type) (vs : List (Validation T E)) :
      ReachableV (List T) E (Validation.combineValidations vs)
  | validateAll (T E : Type) (items : List T) (validator : T → Validation T E) :
      ReachableV (List T) E (Validation.validateAll items validator)
  | fromResult (T E : Type) (r : Result T E) : ReachableV T E (Validation.fromResult r)
  | fromOption (T E : Type) (o : Option T) (e : E) : ReachableV T E (Validation.fromOption o e)

/-- The fold after `Promise.all` in `all` (src/utils/combinators.ts lines
8-17): iterates the settled results in input order; on the first Err returns
`err(result.error)`, otherwise pushes each value and returns `ok(values)`.
Entries are modelled by the Result each settles to (`Promise.all` preserves
input order regardless of settlement timing). -/
def allGo {T E : Type} : List (Result T E) → List T → Result (List T) E
  | [], values => Result.ok values
  | result :: rest, values =>
    match result with
    | Result.err e => Result.err e
    | Result.ok v => allGo rest (values ++ [v])

/-- all: start the fold with an empty `values` array. -/
def all {T E : Type} (results : List (Result T E)) : Result (List T) E :=
  allGo results []

/-- The fold after `Promise.all` in `any` (src/utils/combinators.ts lines
23-34): on the first Ok returns `ok(result.value)`, otherwise pushes each
error and finally returns `err(errors)`. -/
def anyGo {T E : Type} : List (Result T E) → List E → Result T (List E)
  | [], errors => Result.err errors
  | result :: rest, errors =>
    match result with
    | Result.ok v => Result.ok v
    | Result.err e => anyGo rest (errors ++ [e])

/-- any: start the fold with an empty `errors` array. -/
def any {T E : Type} (results : List (Result T E)) : Result T (List E) :=
  anyGo results []

/-- The for-loop of pipeline (src/utils/pipeline.ts lines 9-22): before each
step, an Err result is returned at once (the remaining fns are skipped);
otherwise the step is invoked on `result.value`. The second component counts
how many step functions were invoked. Async steps are modelled by the Result
they settle to (the loop awaits them before continuing). -/
def pipelineGo {T E : Type} : List (T → Result T E) → Result T E → Result T E × Nat
  | [], result => (result, 0)
  | fn :: rest, result =>
    match result with
    | Result.err e => (Result.err e, 0)
    | Result.ok v =>
      match pipelineGo rest (fn v) with
      | (r, n) => (r, n + 1)

/-- pipeline: threads `ok(initialValue)` through the steps. -/
def pipeline {T E : Type} (fns : List (T → Result T E)) (initialValue : T) : Result T E :=
  (pipelineGo fns (Result.ok initialValue)).1

/-- Number of step functions pipeline actually invokes on a given input. -/
def pipelineInvocations {T E : Type} (fns : List (T → Result T E)) (initialValue : T) : Nat :=
  (pipelineGo fns (Result.ok initialValue)).2

/-- The for-loop of retry (src/utils/retry.ts lines 12-20), one constructor
case per remaining loop iteration: `fn` is modelled by the sequence of the
results of its successive calls (`fn attempt` is what the call made on
iteration `attempt` returns, attempts numbered from 1); `calls` counts the
invocations of fn made so far and `delays` the `setTimeout` sleeps performed
so far (a sleep happens after a failed attempt only when
`attempt < maxAttempts`). When the iterations are exhausted the loop falls
through to `err("Failed after " + maxAttempts + " attempts")`; that synthetic
error is a string cast to E in the source, so the error channel of the
returned Result is String. -/
def retryGo {T E : Type} (fn : Nat → Result T E) (maxAttempts : Int) :
    Nat → Nat → Nat → Nat → Result T String × Nat × Nat
  | 0, _, calls, delays =>
    (Result.err ("Failed after " ++ toString maxAttempts ++ " attempts"), calls, delays)
  | fuel + 1, attempt, calls, delays =>
    match fn attempt with
    | Result.ok v => (Result.ok v, calls + 1, delays)
    | Result.err _ =>
      if (attempt : Int) < maxAttempts then
        retryGo fn maxAttempts fuel (attempt + 1) (calls + 1) (delays + 1)
      else
        retryGo fn maxAttempts fuel (attempt + 1) (calls + 1) delays

/-- retry: the loop runs `for (attempt = 1; attempt <= maxAttempts; attempt++)`,
so it has `maxAttempts.toNat` iterations starting at attempt 1. Returns the
settled Result together with how many times fn was invoked and how many
delays were observed. -/
def retry {T E : Type} (fn : Nat → Result T E) (maxAttempts : Int) :
    Result T String × Nat × Nat :=
  retryGo fn maxAttempts maxAttempts.toNat 1 0 0

/-- Concrete call sequence used to instantiate the retry claim: the first
two calls fail, the third succeeds with 42. -/
def retryCallsW : Nat → Result Nat String :=
  fun k => if k = 3 then Result.ok 42 else Result.err "fail"

/-- C7: transpose round-trip. `ok(some(v)).transpose() = some(ok(v))`,
`ok(none()).transpose() = none()`, `err(e).transpose() = some(err(e))`, and
in the reverse direction `some(ok(v)).transpose() = ok(some(v))` (the Option
direction is modelled from the spec, see `Fates.Option.transpose`). -/
theorem c7_transpose_round_trip :
    (∀ (T E : Type) (v : T),
      (Result.ok (Option.some v) : Result (Option T) E).transpose = Option.some (Result.ok v))
    ∧ (∀ (T E : Type),
      (Result.ok Option.none : Result (Option T) E).transpose = Option.none)
    ∧ (∀ (T E : Type) (e : E),
      (Result.err e : Result (Option T) E).transpose = Option.some (Result.err e))
    ∧ (∀ (T E : Type) (v : T),
      (Option.some (Result.ok v) : Option (Result T E)).transpose = Result.ok (Option.some v)) :=
  ⟨fun _ _ _ => rfl, fun _ _ => rfl, fun _ _ _ => rfl, fun _ _ _ => rfl⟩

/-- C8: Result.zip is left-biased: `ok(a).zip(ok(b)) = ok([a, b])`,
`ok(a).zip(err(e2)) = err(e2)`, `err(e1).zip(ok(b)) = err(e1)`, and when both
sides are Err the left error wins: `err(e1).zip(err(e2)) = err(e1)`. -/
theorem c8_zip_left_biased :
    (∀ (T U E : Type) (a : T) (b : U),
      (Result.ok a : Result T E).zip (Result.ok b) = Result.ok (a, b))
    ∧ (∀ (T U E : Type) (a : T) (e2 : E),
      (Result.ok a : Result T E).zip (Result.err e2 : Result U E) = Result.err e2)
    ∧ (∀ (T U E : Type) (e1 : E) (b : U),
      (Result.err e1 : Result T E).zip (Result.ok b) = Result.err e1)
    ∧ (∀ (T U E : Type) (e1 e2 : E),
      (Result.err e1 : Result T E).zip (Result.err e2 : Result U E) = Result.err e1) :=
  ⟨fun _ _ _ _ _ => rfl, fun _ _ _ _ _ => rfl, fun _ _ _ _ _ => rfl, fun _ _ _ _ _ => rfl⟩

/-- C6: unwrap returns the success value on Ok and fails fatally on Err
(throws `Called unwrap on an Err value: ${value}`, modelled as
`Except.error`); every other Result operation is total and never throws —
each one is a total function on both variants, with the defining equations
below (function arguments assumed total, as the claim states). -/
theorem c6_unwrap_only_unsafe_operation :
    (∀ (T E : Type) [ToString E] (v : T),
      (Result.ok v : Result T E).unwrap = Except.ok v)
    ∧ (∀ (T E : Type) [ToString E] (e : E),
      (Result.err e : Result T E).unwrap
        = Except.error ("Called unwrap on an Err value: " ++ toString e))
    ∧ (∀ (T E : Type) (v : T) (e : E),
      (Result.ok v : Result T E).isOk = true ∧ (Result.err e : Result T E).isOk = false
        ∧ (Result.ok v : Result T E).isErr = false ∧ (Result.err e : Result T E).isErr = true)
    ∧ (∀ (T U E : Type) (v : T) (e : E) (f : T → U),
      (Result.ok v : Result T E).map f = Result.ok (f v)
        ∧ (Result.err e : Result T E).map f = Result.err e)
    ∧ (∀ (T E F : Type) (v : T) (e : E) (f : E → F),
      (Result.ok v : Result T E).mapErr f = Result.ok v
        ∧ (Result.err e : Result T E).mapErr f = Result.err (f e))
    ∧ (∀ (T U E : Type) (v : T) (e : E) (f : T → Result U E),
      (Result.ok v : Result T E).andThen f = f v
        ∧ (Result.err e : Result T E).andThen f = Result.err e)
    ∧ (∀ (T E F : Type) (v : T) (e : E) (f : E → Result T F),
      (Result.ok v : Result T E).orElse f = Result.ok v
        ∧ (Result.err e : Result T E).orElse f = f e)
    ∧ (∀ (T E U : Type) (v : T) (e : E) (okFn : T → U) (errFn : E → U),
      (Result.ok v : Result T E).matchWith okFn errFn = okFn v
        ∧ (Result.err e : Result T E).matchWith okFn errFn = errFn e)
    ∧ (∀ (T E : Type) (v d : T) (e : E),
      (Result.ok v : Result T E).unwrapOr d = v
        ∧ (Result.err e : Result T E).unwrapOr d = d)
    ∧ (∀ (T E : Type) (v : T) (e : E) (f : E → T),
      (Result.ok v : Result T E).unwrapOrElse f = v
        ∧ (Result.err e : Result T E).unwrapOrElse f = f e)
    ∧ (∀ (T E : Type) (v : T) (e : E),
      (Result.ok v : Result T E).safeUnwrap = Sum.inl v
        ∧ (Result.err e : Result T E).safeUnwrap = Sum.inr e)
    ∧ (∀ (T U E : Type) (v : T) (e : E) (rb : Result U E),
      (Result.ok v : Result T E).and rb = rb
        ∧ (Result.err e : Result T E).and rb = Result.err e)
    ∧ (∀ (T E : Type) (v : T) (e : E) (rb : Result T E),
      (Result.ok v : Result T E).or rb = Result.ok v
        ∧ (Result.err e : Result T E).or rb = rb)
    ∧ (∀ (T U E : Type) (v : T) (e : E) (other : Result U E),
      (Result.ok v : Result T E).zip other = other.map (fun o => (v, o))
        ∧ (Result.err e : Result T E).zip other = Result.err e)
    ∧ (∀ (U E : Type) (v : U) (e : E),
      (Result.ok (Option.some v) : Result (Option U) E).transpose = Option.some (Result.ok v)
        ∧ (Result.ok Option.none : Result (Option U) E).transpose = Option.none
        ∧ (Result.err e : Result (Option U) E).transpose = Option.some (Result.err e)) := by
  refine ⟨?_, ?_, ?_, ?_, ?_, ?_, ?_, ?_, ?_, ?_, ?_, ?_, ?_, ?_, ?_⟩ <;> intros <;>
    first
      | rfl
      | exact ⟨rfl, rfl⟩
      | exact ⟨rfl, rfl, rfl⟩
      | exact ⟨rfl, rfl, rfl, rfl⟩

/-- The combineValidations loop accumulates exactly the Valid values and the
concatenated Invalid errors, in input order, onto its accumulators. -/
theorem Validation.combineGo_eq {T E : Type} (l : List (Validation T E)) :
    ∀ (values : List T) (errors : List E),
      Validation.combineGo l values errors
        = (values ++ Validation.validValues l, errors ++ Validation.allErrors l) := by
  induction l with
  | nil => intro values errors; simp [Validation.combineGo, Validation.validValues,
      Validation.allErrors]
  | cons x rest ih =>
    intro values errors
    cases x with
    | valid v =>
      simp [Validation.combineGo, Validation.validValues, Validation.allErrors, ih]
    | invalid es =>
      simp [Validation.combineGo, Validation.validValues, Validation.allErrors, ih]

/-- On an all-Valid list the loop collects exactly the values. -/
theorem Validation.validValues_map_valid {T E : Type} (vs : List T) :
    Validation.validValues (vs.map (Validation.valid : T → Validation T E)) = vs := by
  induction vs with
  | nil => rfl
  | cons v rest ih => simp [Validation.validValues, ih]

/-- An all-Valid list contributes no errors. -/
theorem Validation.allErrors_map_valid {T E : Type} (vs : List T) :
    Validation.allErrors (vs.map (Validation.valid : T → Validation T E)) = [] := by
  induction vs with
  | nil => rfl
  | cons v rest ih => simp [Validation.allErrors, ih]

/-- C1 counterexample: the claim quantifies over every list of Validation
values, but `invalid()` (the variadic constructor with zero arguments)
builds an Invalid with an empty error list, and on `[invalid()]` the code
returns `valid([])` — not an Invalid — although the list has an Invalid
element. -/
theorem c1_counterexample :
    Validation.combineValidations [(Validation.invalid [] : Validation Nat String)]
        = Validation.valid []
      ∧ (Validation.invalid [] : Validation Nat String).isInvalid = true
      ∧ (Validation.combineValidations
          [(Validation.invalid [] : Validation Nat String)]).isInvalid = false :=
  ⟨rfl, rfl, rfl⟩

/-- C1 (amended): if every element is Valid, combineValidations returns
Valid of the values in input order; if the concatenation of the error
sequences of all Invalid elements is non-empty (so in particular whenever
some Invalid element carries at least one error — every Invalid contributes,
not only the first), it returns Invalid of that concatenation in input
order. The spec's concrete contrast also holds:
`combineValidations([invalid("a"), valid(1), invalid("b")]) = invalid("a","b")`
while `ok(1).andThen(() => err("a")).andThen(() => err("b")) = err("a")`. -/
theorem c1_combineValidations_accumulates :
    (∀ (T E : Type) (vs : List T),
      Validation.combineValidations (vs.map (Validation.valid : T → Validation T E))
        = Validation.valid vs)
    ∧ (∀ (T E : Type) (vs : List (Validation T E)),
      Validation.allErrors vs ≠ [] →
        Validation.combineValidations vs = Validation.invalid (Validation.allErrors vs))
    ∧ Validation.combineValidations
        ([Validation.invalid ["a"], Validation.valid 1, Validation.invalid ["b"]]
          : List (Validation Nat String))
        = Validation.invalid ["a", "b"]
    ∧ ((Result.ok 1 : Result Nat String).andThen
        (fun _ => (Result.err "a" : Result Nat String))).andThen
        (fun _ => (Result.err "b" : Result Nat String))
        = Result.err "a" := by
  refine ⟨?_, ?_, by decide, rfl⟩
  · intro T E vs
    simp [Validation.combineValidations, Validation.combineGo_eq,
      Validation.validValues_map_valid, Validation.allErrors_map_valid]
  · intro T E vs h
    simp [Validation.combineValidations, Validation.combineGo_eq,
      List.length_pos, h]

/-- C1 witness: the accumulating branch of the amended claim at a concrete
input. -/
theorem c1_witness :
    Validation.combineValidations
        ([Validation.invalid ["a"], Validation.valid 1, Validation.invalid ["b"]]
          : List (Validation Nat String))
      = Validation.invalid
          (Validation.allErrors
            ([Validation.invalid ["a"], Validation.valid 1, Validation.invalid ["b"]]
              : List (Validation Nat String))) :=
  c1_combineValidations_accumulates.2.1 Nat String _ (by decide)

/-- combineValidations only builds an Invalid from a non-empty error list
(the `errors.length > 0` guard), whatever its input. -/
theorem Validation.combineValidations_holdsAnError {T E : Type}
    (vs : List (Validation T E)) : holdsAnError (Validation.combineValidations vs) := by
  unfold holdsAnError Validation.combineValidations
  rw [Validation.combineGo_eq]
  simp only [List.nil_append, gt_iff_lt]
  by_cases h : 0 < (Validation.allErrors vs).length
  · simp only [if_pos h, Validation.isInvalid, Validation.errorsOf]
    intro _ hnil
    rw [hnil] at h
    simp at h
  · simp only [if_neg h, Validation.isInvalid]
    intro hinv
    simp at hinv

/-- C9 counterexample: `invalid()` — the public variadic constructor called
with zero errors — yields an Invalid whose error list is empty. -/
theorem c9_counterexample :
    (Validation.invalid [] : Validation Nat String).isInvalid = true
      ∧ (Validation.invalid [] : Validation Nat String).errorsOf = [] :=
  ⟨rfl, rfl⟩

/-- C9 (amended): every Invalid reachable through the public Validation
interface holds at least one error, provided the variadic `invalid`
constructor receives at least one error and the function given to `mapError`
maps non-empty error lists to non-empty lists; `valid`, `map`, `and`, `or`,
`combineValidations`, `validateAll`, `fromResult` and `fromOption` preserve
or establish the invariant with no extra condition. -/
theorem c9_invalid_nonempty (T E : Type) (x : Validation T E)
    (h : ReachableV T E x) : holdsAnError x := by
  induction h with
  | valid T E v => intro hinv; simp [Validation.isInvalid] at hinv
  | invalid T E es hne => intro _; simpa [Validation.errorsOf] using hne
  | map T U E x fn hx ih =>
    cases x with
    | valid v => intro hinv; simp [Validation.map, Validation.isInvalid] at hinv
    | invalid es =>
      intro _
      simpa [Validation.map, Validation.errorsOf] using
        ih (by simp [Validation.isInvalid])
  | mapError T E F x fn hfn hx ih =>
    cases x with
    | valid v => intro hinv; simp [Validation.mapError, Validation.isInvalid] at hinv
    | invalid es =>
      intro _
      have hes : es ≠ [] := by
        simpa [Validation.errorsOf] using ih (by simp [Validation.isInvalid])
      simpa [Validation.mapError, Validation.errorsOf] using hfn es hes
  | and T U E x y hx hy ihx ihy =>
    cases x with
    | valid v => simpa [Validation.and] using ihy
    | invalid es =>
      intro _
      simpa [Validation.and, Validation.errorsOf] using
        ihx (by simp [Validation.isInvalid])
  | or T E x y hx hy ihx ihy =>
    cases x with
    | valid v => intro hinv; simp [Validation.or, Validation.isInvalid] at hinv
    | invalid es => simpa [Validation.or] using ihy
  | combine T E vs => exact Validation.combineValidations_holdsAnError vs
  | validateAll T E items validator =>
    exact Validation.combineValidations_holdsAnError (items.map validator)
  | fromResult T E r =>
    cases r with
    | ok v => intro hinv; simp [Validation.fromResult, Result.matchWith,
        Validation.isInvalid] at hinv
    | err e => intro _; simp [Validation.fromResult, Result.matchWith,
        Validation.errorsOf]
  | fromOption T E o e =>
    cases o with
    | some v => intro hinv; simp [Validation.fromOption, Validation.isInvalid] at hinv
    | none => intro _; simp [Validation.fromOption, Validation.errorsOf]

/-- C9 witness: the invariant at a concrete reachable value. -/
theorem c9_witness :
    holdsAnError (Validation.invalid ["boom"] : Validation Nat String) :=
  c9_invalid_nonempty Nat String _ (ReachableV.invalid Nat String ["boom"] (by decide))

/-- The all-fold walks over a leading run of Ok entries, pushing its values in order. -/
theorem allGo_ok_front {T E : Type} (vs : List T) :
    ∀ (l : List (Result T E)) (acc : List T),
      allGo (vs.map Result.ok ++ l) acc = allGo l (acc ++ vs) := by
  induction vs with
  | nil => intro l acc; simp
  | cons v rest ih =>
    intro l acc
    rw [List.map_cons, List.cons_append]
    show allGo (rest.map Result.ok ++ l) (acc ++ [v]) = allGo l (acc ++ v :: rest)
    rw [ih]
    congr 1
    simp

/-- The any-fold walks over a leading run of Err entries, pushing its errors in order. -/
theorem anyGo_err_front {T E : Type} (es : List E) :
    ∀ (l : List (Result T E)) (acc : List E),
      anyGo (es.map Result.err ++ l) acc = anyGo l (acc ++ es) := by
  induction es with
  | nil => intro l acc; simp
  | cons e rest ih =>
    intro l acc
    rw [List.map_cons, List.cons_append]
    show anyGo (rest.map Result.err ++ l) (acc ++ [e]) = anyGo l (acc ++ e :: rest)
    rw [ih]
    congr 1
    simp

/-- C2: all(entries) — each entry modelled by the Result it settles to,
`Promise.all` collecting the settled results in input order regardless of
settlement timing — resolves to Ok of all values in input order when every
entry is Ok, and otherwise to the Err of the lowest-index Err entry; the
spec's concrete case `all([ok(1), err("x"), ok(2)]) = err("x")` follows. -/
theorem c2_all_first_err_by_index :
    (∀ (T E : Type) (vs : List T),
      all (vs.map (Result.ok : T → Result T E)) = Result.ok vs)
    ∧ (∀ (T E : Type) (vs : List T) (e : E) (rest : List (Result T E)),
      all (vs.map Result.ok ++ Result.err e :: rest) = Result.err e)
    ∧ all [Result.ok 1, Result.err "x", Result.ok 2]
        = (Result.err "x" : Result (List Nat) String) := by
  refine ⟨?_, ?_, by decide⟩
  · intro T E vs
    have h := allGo_ok_front (E := E) vs [] []
    simpa [all] using h
  · intro T E vs e rest
    have h := allGo_ok_front (E := E) vs (Result.err e :: rest) []
    simpa [all, allGo] using h

/-- C3: any(entries) — entries modelled as in C2 — resolves to the first Ok
by input order when at least one entry is Ok, and to Err of the list of all
errors in input order when every entry is Err; the spec's concrete cases
`any([err("x"), ok(1), err("y")]) = ok(1)` and
`any([err("x"), err("y")]) = err(["x","y"])` follow. -/
theorem c3_any_first_ok_by_index :
    (∀ (T E : Type) (es : List E) (v : T) (rest : List (Result T E)),
      any (es.map Result.err ++ Result.ok v :: rest) = Result.ok v)
    ∧ (∀ (T E : Type) (es : List E),
      any (es.map (Result.err : E → Result T E)) = Result.err es)
    ∧ any [Result.err "x", Result.ok 1, Result.err "y"]
        = (Result.ok 1 : Result Nat (List String))
    ∧ any [(Result.err "x" : Result Nat String), Result.err "y"]
        = Result.err ["x", "y"] := by
  refine ⟨?_, ?_, by decide, by decide⟩
  · intro T E es v rest
    have h := anyGo_err_front (T := T) es (Result.ok v :: rest) []
    simpa [any, anyGo] using h
  · intro T E es
    have h := anyGo_err_front (T := T) es [] []
    simpa [any] using h

/-- An Err entering the pipeline loop is returned at once: no remaining
step function is invoked. -/
theorem pipelineGo_err {T E : Type} (fns : List (T → Result T E)) (e : E) :
    pipelineGo fns (Result.err e) = (Result.err e, 0) := by
  cases fns with
  | nil => rfl
  | cons fn rest => rfl

/-- Pure steps thread the value left to right through the whole pipeline. -/
theorem pipeline_pure_steps {T E : Type} (gs : List (T → T)) :
    ∀ x : T,
      pipeline (gs.map (fun g => fun y => (Result.ok (g y) : Result T E))) x
        = Result.ok (gs.foldl (fun a g => g a) x) := by
  induction gs with
  | nil => intro x; rfl
  | cons g rest ih =>
    intro x
    simpa [pipeline, pipelineGo] using ih (g x)

/-- C4: pipeline(...steps) threads the value through the steps in order,
each step receiving the unwrapped success value of the previous one (the
first receives the initial value); an Err from a step is returned
immediately, whatever the remaining steps are, and the invocation count
shows the later step functions are never invoked; with no failure the Ok of
the last step (the fold of the steps) is returned. The spec's concrete case
`pipeline(x=>ok(x+10), x=>err("too big"), x=>ok(x*2))(1) = err("too big")`
with the third step never invoked follows. -/
theorem c4_pipeline_short_circuit :
    (∀ (T E : Type) (x : T), pipeline ([] : List (T → Result T E)) x = Result.ok x)
    ∧ (∀ (T E : Type) (f : T → Result T E) (rest : List (T → Result T E)) (x v : T),
      f x = Result.ok v →
        pipeline (f :: rest) x = pipeline rest v
          ∧ pipelineInvocations (f :: rest) x = pipelineInvocations rest v + 1)
    ∧ (∀ (T E : Type) (f : T → Result T E) (rest : List (T → Result T E)) (x : T) (e : E),
      f x = Result.err e →
        pipeline (f :: rest) x = Result.err e ∧ pipelineInvocations (f :: rest) x = 1)
    ∧ (∀ (T E : Type) (gs : List (T → T)) (x : T),
      pipeline (gs.map (fun g => fun y => (Result.ok (g y) : Result T E))) x
        = Result.ok (gs.foldl (fun a g => g a) x))
    ∧ pipeline [fun x => Result.ok (x + 10), fun _ => Result.err "too big",
        fun x => Result.ok (x * 2)] 1 = (Result.err "too big" : Result Nat String)
    ∧ pipelineInvocations [fun x => (Result.ok (x + 10) : Result Nat String),
        fun _ => Result.err "too big", fun x => Result.ok (x * 2)] 1 = 2 := by
  refine ⟨fun T E x => rfl, ?_, ?_, fun T E gs x => pipeline_pure_steps gs x, by decide, by decide⟩
  · intro T E f rest x v h
    constructor
    · simp [pipeline, pipelineGo, h]
    · simp [pipelineInvocations, pipelineGo, h]
  · intro T E f rest x e h
    constructor
    · simp [pipeline, pipelineGo, h, pipelineGo_err]
    · simp [pipelineInvocations, pipelineGo, h, pipelineGo_err]

/-- C4 witness: the short-circuit branch at the spec's concrete input. -/
theorem c4_witness :
    pipeline [fun x => (Result.ok (x + 10) : Result Nat String),
        fun _ => Result.err "too big", fun x => Result.ok (x * 2)] 1
      = pipeline [fun _ => (Result.err "too big" : Result Nat String),
        fun x => Result.ok (x * 2)] 11 :=
  (c4_pipeline_short_circuit.2.1 Nat String _ _ 1 11 rfl).1

/-- If every attempt in the remaining iterations fails, the retry loop runs
them all, sleeping after each failed attempt except the last, and falls
through to the synthetic exhaustion error. The invariant
`attempt + fuel = maxAttempts + 1` says the loop entered at `attempt` has
`fuel` iterations left. -/
theorem retryGo_all_err {T E : Type} (fn : Nat → Result T E) (m : Int) :
    ∀ (fuel attempt calls delays : Nat),
      (attempt : Int) + fuel = m + 1 →
      (∀ j, attempt ≤ j → j < attempt + fuel → (fn j).isErr = true) →
      retryGo fn m fuel attempt calls delays
        = (Result.err ("Failed after " ++ toString m ++ " attempts"),
            calls + fuel, delays + (fuel - 1)) := by
  intro fuel
  induction fuel with
  | zero => intro attempt calls delays hinv herr; simp [retryGo]
  | succ f ih =>
    intro attempt calls delays hinv herr
    have h1 : (fn attempt).isErr = true := herr attempt le_rfl (by omega)
    cases hfa : fn attempt with
    | ok w => rw [hfa] at h1; simp [Result.isErr] at h1
    | err e =>
      by_cases hlt : (attempt : Int) < m
      · have hf : 0 < f := by omega
        simp only [retryGo, hfa]
        rw [if_pos hlt]
        rw [ih (attempt + 1) (calls + 1) (delays + 1) (by push_cast at hinv ⊢; omega)
          (fun j hj1 hj2 => herr j (by omega) (by omega))]
        simp only [Prod.mk.injEq]
        exact ⟨by simp, by omega, by omega⟩
      · have hf : f = 0 := by omega
        subst hf
        simp only [retryGo, hfa]
        rw [if_neg hlt]
        simp [retryGo]

/-- If the attempts before offset `i` fail and the attempt at offset `i`
succeeds, the loop returns that Ok after `i + 1` calls and `i` sleeps. -/
theorem retryGo_first_ok {T E : Type} (fn : Nat → Result T E) (m : Int) (v : T) :
    ∀ (i fuel attempt calls delays : Nat),
      (attempt : Int) + fuel = m + 1 →
      i < fuel →
      (∀ j, attempt ≤ j → j < attempt + i → (fn j).isErr = true) →
      fn (attempt + i) = Result.ok v →
      retryGo fn m fuel attempt calls delays = (Result.ok v, calls + i + 1, delays + i) := by
  intro i
  induction i with
  | zero =>
    intro fuel attempt calls delays hinv hif herr hok
    cases fuel with
    | zero => omega
    | succ f =>
      have hfa : fn attempt = Result.ok v := by simpa using hok
      simp [retryGo, hfa]
  | succ i ih =>
    intro fuel attempt calls delays hinv hif herr hok
    cases fuel with
    | zero => omega
    | succ f =>
      have h1 : (fn attempt).isErr = true := herr attempt le_rfl (by omega)
      cases hfa : fn attempt with
      | ok w => rw [hfa] at h1; simp [Result.isErr] at h1
      | err e =>
        have hlt : (attempt : Int) < m := by push_cast at hinv; omega
        simp only [retryGo, hfa]
        rw [if_pos hlt]
        rw [ih f (attempt + 1) (calls + 1) (delays + 1) (by push_cast at hinv ⊢; omega)
          (by omega) (fun j hj1 hj2 => herr j (by omega) (by omega))
          (by have harr : attempt + 1 + i = attempt + (i + 1) := by omega
              rw [harr]; exact hok)]
        simp only [Prod.mk.injEq]
        exact ⟨by simp, by omega, by omega⟩

/-- C5: retry(fn, maxAttempts, delayMs) — fn modelled by the results of its
successive calls, a delay by the setTimeout event between failed attempts —
invokes fn at most maxAttempts times; if the attempts before the k-th fail
and the k-th succeeds (1 ≤ k ≤ maxAttempts), it returns that Ok having made
exactly k calls and observed exactly k - 1 delays (none after the last
attempt); if all maxAttempts attempts fail, it resolves to the synthetic
exhaustion Err after exactly maxAttempts calls and maxAttempts - 1 delays. -/
theorem c5_retry_spec :
    (∀ (T E : Type) (fn : Nat → Result T E) (m : Int) (k : Nat) (v : T),
      1 ≤ k → (k : Int) ≤ m →
      (∀ j, 1 ≤ j → j < k → (fn j).isErr = true) →
      fn k = Result.ok v →
      retry fn m = (Result.ok v, k, k - 1))
    ∧ (∀ (T E : Type) (fn : Nat → Result T E) (m : Int),
      1 ≤ m →
      (∀ j : Nat, 1 ≤ j → (j : Int) ≤ m → (fn j).isErr = true) →
      retry fn m = (Result.err ("Failed after " ++ toString m ++ " attempts"),
          m.toNat, m.toNat - 1)) := by
  constructor
  · intro T E fn m k v hk1 hkm herr hok
    unfold retry
    rw [retryGo_first_ok fn m v (k - 1) m.toNat 1 0 0 (by omega) (by omega)
      (fun j hj1 hj2 => herr j hj1 (by omega))
      (by have harr : 1 + (k - 1) = k := by omega
          rw [harr]; exact hok)]
    simp only [Prod.mk.injEq]
    exact ⟨by simp, by omega, by omega⟩
  · intro T E fn m hm herr
    unfold retry
    rw [retryGo_all_err fn m m.toNat 1 0 0 (by omega)
      (fun j hj1 hj2 => herr j hj1 (by omega))]
    simp only [Prod.mk.injEq]
    exact ⟨by simp, by omega, by omega⟩

/-- C5 witness: a call sequence failing twice then succeeding, with
maxAttempts = 3, yields the Ok after 3 calls and exactly 2 delays. -/
theorem c5_witness : retry retryCallsW 3 = (Result.ok 42, 3, 2) := by
  have h := c5_retry_spec.1 Nat String retryCallsW 3 3 42 (by decide) (by decide)
    (fun j hj1 hj2 => by
      have hne : j ≠ 3 := by omega
      simp [retryCallsW, hne, Result.isErr])
    (by simp [retryCallsW])
  simpa using h

/-- C10: for maxAttempts ≤ 0 the retry loop body never runs — fn is invoked
zero times, no delay is observed — and the synthetic exhaustion Err is
returned with the given attempt count in its message. -/
theorem c10_retry_nonpositive_attempts :
    ∀ (T E : Type) (fn : Nat → Result T E) (m : Int),
      m ≤ 0 →
      retry fn m = (Result.err ("Failed after " ++ toString m ++ " attempts"), 0, 0) := by
  intro T E fn m hm
  unfold retry
  have h0 : m.toNat = 0 := by omega
  rw [h0]
  rfl

/-- C10 witness: maxAttempts = 0 yields "Failed after 0 attempts" with fn
never invoked. -/
theorem c10_witness :
    retry (fun _ => (Result.ok 7 : Result Nat String)) 0
      = (Result.err "Failed after 0 attempts", 0, 0) := by
  have h := c10_retry_nonpositive_attempts Nat String (fun _ => Result.ok 7) 0 (by decide)
  simpa using h

end Fates
